import Mathlib

/-!
Shallow embedding of the go-metrics core (package `metric`): tag sets and
their validation, the counter and histogram primitives, and the registry
with TTL-based cleanup and cardinality accounting.

Modelling conventions:
* Go `uint64` state is `Nat` with an explicit `% U64` wherever Go addition
  can wrap; `int` values that may go negative (the cardinality table) are `Int`.
* Go `float64` inputs are modelled as `ℚ`: every operation of this library
  on floats is an order comparison or a floor-truncation, and all concrete
  values appearing in the spec and tests are exactly representable.
* Go maps are association lists with unique keys; iteration-order-dependent
  results are characterised only where they are order-independent.
* `time.Time`/`time.Duration` are `Nat` nanosecond counts; the current time
  is an explicit `now` parameter.
* A Go `panic` in a constructor/lookup is an `Except`-style error result;
  the state returned alongside an error is the state at the panic point
  (no registry write precedes any panic in the source).
-/

namespace GoMetrics

/-- `2 ^ 64`, the wrap-around modulus of Go's `uint64` arithmetic. -/
def U64 : Nat := 2 ^ 64

/-- Go's conversion `uint64(v)` of a non-negative `float64` that fits in
range: truncation toward zero (floor for non-negative inputs).  Outside
`0 ≤ v < 2^64` the Go conversion is implementation-defined; this model
maps negatives to `0`. -/
def trunc (q : ℚ) : Nat := (⌊q⌋).toNat

/-- `metric.Tags`: a Go `map[string]string`, modelled as an association
list with unique keys. -/
abbrev Tags := List (String × String)

/-- Association-list lookup, the read `m[k]` of a Go map (`none` = absent). -/
def alistFind? {α : Type} : List (String × α) → String → Option α
  | [], _ => none
  | p :: t, k => if p.1 = k then some p.2 else alistFind? t k

/-- Association-list delete, Go's `delete(m, k)`. -/
def alistErase {α : Type} : List (String × α) → String → List (String × α)
  | [], _ => []
  | p :: t, k => if p.1 = k then alistErase t k else p :: alistErase t k

/-- Association-list write, Go's `m[k] = v` (overwrite or append). -/
def alistSet {α : Type} : List (String × α) → String → α → List (String × α)
  | [], k, v => [(k, v)]
  | p :: t, k, v => if p.1 = k then (k, v) :: t else p :: alistSet t k v

/-- `copyTags(originalTags, newTags)`: fresh map holding `originalTags`
then `newTags`, the overlay winning on key collision (two `maps.Copy`
calls in the source). -/
def copyTags (originalTags newTags : Tags) : Tags :=
  newTags.foldl (fun acc p => alistSet acc p.1 p.2) originalTags

/-- `metric.TagValidationConfig`.  Lengths and counts are `Nat`; the
cardinality bound is `Int` because the cardinality table itself is a Go
`map[string]int` whose values the sweep can drive below zero. -/
structure TagValidationConfig where
  maxKeys : Nat
  maxKeyLength : Nat
  maxValueLength : Nat
  maxCardinality : Int
  disallowedKeys : List String
deriving DecidableEq

/-- The distinct failure kinds of `metric.ValidateTags` (the source
returns `fmt.Errorf` values; only the kind and offending key matter). -/
inductive TagError where
  | tooManyKeys
  | keyTooLong (key : String)
  | valueTooLong (key : String)
  | disallowedKey (key : String)
  | emptyKey
deriving DecidableEq

/-- The per-entry checks of `ValidateTags`'s loop body, in source order:
key length, value length, denylist membership, empty key. -/
def checkTag (config : TagValidationConfig) (kv : String × String) : Option TagError :=
  if kv.1.utf8ByteSize > config.maxKeyLength then some (.keyTooLong kv.1)
  else if kv.2.utf8ByteSize > config.maxValueLength then some (.valueTooLong kv.1)
  else if config.disallowedKeys.contains kv.1 then some (.disallowedKey kv.1)
  else if kv.1 = "" then some .emptyKey
  else none

/-- `metric.ValidateTags`: the `len(tags) > MaxKeys` gate, then the first
per-entry failure found while ranging over the map. -/
def validateTags (tags : Tags) (config : TagValidationConfig) : Option TagError :=
  if tags.length > config.maxKeys then some .tooManyKeys
  else tags.findSome? (checkTag config)

deriving instance DecidableEq for Except

/-- The two failure kinds of `metric.ValidateBuckets`. -/
inductive BucketError where
  | nonPositive
  | notAscending
deriving DecidableEq

/-- The adjacent-pair ascending check of `ValidateBuckets`'s second loop. -/
def strictlyAscending : List ℚ → Bool
  | [] => true
  | [_] => true
  | a :: b :: rest => decide (a < b) && strictlyAscending (b :: rest)

/-- `metric.ValidateBuckets`: empty is legal, then every boundary must be
positive, then adjacent boundaries must be strictly ascending. -/
def validateBuckets (buckets : List ℚ) : Option BucketError :=
  if buckets = [] then none
  else if buckets.any (fun b => decide (b ≤ 0)) then some .nonPositive
  else if strictlyAscending buckets then none
  else some .notAscending

/-- `metric.Options` (the `Buckets` boundaries as ℚ, `TTL` in nanoseconds). -/
structure Options where
  name : String
  description : String
  unit : String
  tags : Tags
  buckets : List ℚ
  ttl : Nat
deriving DecidableEq

/-- `counterImpl`: the `baseMetric` descriptive fields plus one `uint64`
word. -/
structure CounterState where
  name : String
  description : String
  unit : String
  tags : Tags
  value : Nat
deriving DecidableEq

/-- `newCounter`. -/
def newCounter (opts : Options) : CounterState :=
  { name := opts.name, description := opts.description, unit := opts.unit,
    tags := opts.tags, value := 0 }

/-- `(*counterImpl).Inc`: `atomic.AddUint64(&c.value, 1)`. -/
def counterInc (c : CounterState) : CounterState :=
  { c with value := (c.value + 1) % U64 }

/-- `(*counterImpl).Add`: add `uint64(value)` only when `value > 0`. -/
def counterAdd (c : CounterState) (value : ℚ) : CounterState :=
  if value > 0 then { c with value := (c.value + trunc value) % U64 } else c

/-- `(*counterImpl).Value`. -/
def counterValue (c : CounterState) : Nat := c.value

/-- One call against a counter: `Inc()` or `Add(delta)`. -/
inductive CounterOp where
  | inc
  | add (delta : ℚ)
deriving DecidableEq

/-- Dispatch one `CounterOp`. -/
def counterApply (c : CounterState) : CounterOp → CounterState
  | .inc => counterInc c
  | .add d => counterAdd c d

/-- Run a sequence of counter calls left to right. -/
def runCounter (c : CounterState) (ops : List CounterOp) : CounterState :=
  ops.foldl counterApply c

/-- The number each `CounterOp` adds to the stored word (before wrap). -/
def incAmount : CounterOp → Nat
  | .inc => 1
  | .add d => if d > 0 then trunc d else 0

/-- Total added over a call sequence, in unbounded arithmetic. -/
def totalInc (ops : List CounterOp) : Nat :=
  (ops.map incAmount).sum

/-- The loop body of Go's `sort.Search` with explicit fuel; fuel `j - i`
is always sufficient, mirroring the terminating `for i < j` loop. -/
def sortSearchAux (f : Nat → Bool) : Nat → Nat → Nat → Nat
  | 0, i, _ => i
  | fuel + 1, i, j =>
    if i < j then
      let m := (i + j) / 2
      if f m then sortSearchAux f fuel i m else sortSearchAux f fuel (m + 1) j
    else i

/-- `sort.Search(n, f)`: binary search for the smallest index in `[0, n)`
satisfying `f`, returning `n` when none does (for monotone `f`). -/
def sortSearch (f : Nat → Bool) (n : Nat) : Nat :=
  sortSearchAux f (n - 0) 0 n

/-- `sort.SearchFloat64s(a, x)` = `sort.Search(len(a), func(i) { a[i] >= x })`. -/
def searchFloat64s (a : List ℚ) (x : ℚ) : Nat :=
  sortSearch (fun i => decide (x ≤ a.getD i 0)) a.length

/-- `(*histogramImpl).findBucket`, as a function of the boundary array. -/
def findBucket (boundaries : List ℚ) (value : ℚ) : Nat :=
  let index := searchFloat64s boundaries value
  if index < boundaries.length ∧ value ≤ boundaries.getD index 0 then index
  else boundaries.length

/-- `histogramImpl`: descriptive fields, four `uint64` scalars, the bucket
counter array, and the boundary array. -/
structure HistState where
  name : String
  description : String
  unit : String
  tags : Tags
  count : Nat
  sum : Nat
  min : Nat
  max : Nat
  buckets : List Nat
  boundaries : List ℚ
deriving DecidableEq

/-- The default boundary list of `newHistogram` (`0.001 … 10000`,
written with `mkRat` so the values compute by kernel reduction). -/
def defaultBoundaries : List ℚ :=
  [mkRat 1 1000, mkRat 1 100, mkRat 1 10, 1, 10, 100, 1000, 10000]

/-- `newHistogram`: default the boundaries when none are supplied,
validate them (a validation failure is the constructor's panic), then
allocate `len(boundaries)+1` zeroed buckets. -/
def newHistogram (opts : Options) : Except BucketError HistState :=
  let boundaries := if opts.buckets = [] then defaultBoundaries else opts.buckets
  match validateBuckets boundaries with
  | some e => Except.error e
  | none => Except.ok
      { name := opts.name, description := opts.description, unit := opts.unit,
        tags := opts.tags,
        count := 0, sum := 0, min := 0, max := 0,
        buckets := List.replicate (boundaries.length + 1) 0,
        boundaries := boundaries }

/-- `(*histogramImpl).updateMin`: the settled value of the CAS loop
(`0` is the unset sentinel). -/
def updateMin (current v : Nat) : Nat :=
  if current = 0 ∨ v < current then v else current

/-- `(*histogramImpl).updateMax`: the settled value of the CAS loop. -/
def updateMax (current v : Nat) : Nat :=
  if v > current then v else current

/-- `(*histogramImpl).Observe`. -/
def observe (h : HistState) (value : ℚ) : HistState :=
  let v := trunc value
  let bucketIndex := findBucket h.boundaries value
  { h with
    count := (h.count + 1) % U64
    sum := (h.sum + v) % U64
    buckets := h.buckets.set bucketIndex ((h.buckets.getD bucketIndex 0 + 1) % U64)
    min := updateMin h.min v
    max := updateMax h.max v }

/-- A sequence of `Observe` calls, left to right. -/
def observeAll (h : HistState) (values : List ℚ) : HistState :=
  values.foldl observe h

/-- `(*histogramImpl).With`: the source's struct literal sets only the
`baseMetric` fields and a zeroed bucket array of the same length; every
other field — `count`, `sum`, `min`, `max`, and notably `boundaries` —
takes its Go zero value. -/
def histWith (h : HistState) (tags : Tags) : HistState :=
  { name := h.name, description := h.description, unit := h.unit,
    tags := copyTags h.tags tags,
    count := 0, sum := 0, min := 0, max := 0,
    buckets := List.replicate h.buckets.length 0,
    boundaries := [] }

/-- The four members of `metric.Type`. -/
inductive MetricType where
  | counter
  | gauge
  | histogram
  | timer
deriving DecidableEq

/-- The string constants behind `metric.Type`. -/
def typeString : MetricType → String
  | .counter => "counter"
  | .gauge => "gauge"
  | .histogram => "histogram"
  | .timer => "timer"

/-- The registry key `fmt.Sprintf("%s:%s", metricType, opts.Name)`. -/
def typeKey (t : MetricType) (name : String) : String :=
  typeString t ++ ":" ++ name

/-- `metricEntry`: a stored metric plus its expiration data.  The metric
type is abstract (`M` plays Go's `Metric` interface). -/
structure MetricEntry (M : Type) where
  metric : M
  expiresAt : Nat
  ttl : Nat
deriving DecidableEq

/-- `defaultRegistry`: the identity map, the per-name cardinality table,
and the validation config. -/
structure RegState (M : Type) where
  metrics : List (String × MetricEntry M)
  cardinality : List (String × Int)
  tagValidationConfig : TagValidationConfig
deriving DecidableEq

/-- The failures `(*defaultRegistry).lookup` signals by panicking. -/
inductive RegError where
  | invalidTags (e : TagError)
  | cardinalityExceeded
deriving DecidableEq

/-- `(*defaultRegistry).lookup`, sequentialised: validate tags, return a
cached entry if present, enforce the cardinality cap, otherwise insert a
fresh entry (expiring at `now + ttl` when `ttl > 0`) and bump the
cardinality counter.  Error results carry the untouched registry — in
the source both panics fire before any write. -/
def lookup {M : Type} (r : RegState M) (opts : Options) (metricType : MetricType)
    (factory : Unit → M) (now : Nat) : Except RegError M × RegState M :=
  match validateTags opts.tags r.tagValidationConfig with
  | some e => (Except.error (RegError.invalidTags e), r)
  | none =>
    let key := typeKey metricType opts.name
    match alistFind? r.metrics key with
    | some entry => (Except.ok entry.metric, r)
    | none =>
      if (alistFind? r.cardinality opts.name).getD 0 ≥ r.tagValidationConfig.maxCardinality then
        (Except.error RegError.cardinalityExceeded, r)
      else
        let m := factory ()
        let entry : MetricEntry M :=
          { metric := m
            ttl := opts.ttl
            expiresAt := if opts.ttl > 0 then now + opts.ttl else 0 }
        (Except.ok m,
          { r with
            metrics := alistSet r.metrics key entry
            cardinality := alistSet r.cardinality opts.name
              ((alistFind? r.cardinality opts.name).getD 0 + 1) })

/-- `(*defaultRegistry).Unregister`: delete the four kind-variant keys of
`name` from the identity map.  The source touches nothing else — in
particular the cardinality table is left as it was. -/
def unregister {M : Type} (r : RegState M) (name : String) : RegState M :=
  { r with metrics := r.metrics.filter (fun p =>
      !(p.1 == typeKey .counter name || p.1 == typeKey .gauge name ||
        p.1 == typeKey .histogram name || p.1 == typeKey .timer name)) }

/-- The cardinality update of one sweep eviction: `r.cardinality[name]--`
followed by deleting the key once it is `≤ 0`. -/
def decCard (card : List (String × Int)) (name : String) : List (String × Int) :=
  let c := (alistFind? card name).getD 0 - 1
  if c ≤ 0 then alistErase card name else alistSet card name c

/-- One iteration of `cleanupExpired`'s loop: entries with a TTL whose
expiration has passed are deleted and their name's cardinality decremented. -/
def sweepEntry {M : Type} (nameOf : M → String) (now : Nat)
    (s : RegState M) (p : String × MetricEntry M) : RegState M :=
  if p.2.ttl ≠ 0 ∧ p.2.expiresAt < now then
    { s with
      metrics := alistErase s.metrics p.1
      cardinality := decCard s.cardinality (nameOf p.2.metric) }
  else s

/-- `(*defaultRegistry).cleanupExpired` (also `ManualCleanup`): sweep the
identity map, evicting expired entries.  `nameOf` is the stored metric's
`Name()` accessor. -/
def cleanupExpired {M : Type} (nameOf : M → String) (r : RegState M) (now : Nat) : RegState M :=
  r.metrics.foldl (sweepEntry nameOf now) r

/-- The per-name effect of one eviction on the cardinality table's value:
decrement, deleting the key at zero or below (absent stays absent). -/
def cardStep : Option Int → Option Int
  | none => none
  | some c => if c - 1 ≤ 0 then none else some (c - 1)

/-! ## Association-list lemmas -/

theorem alistFind?_set_self {α : Type} (l : List (String × α)) (k : String) (v : α) :
    alistFind? (alistSet l k v) k = some v := by
  induction l with
  | nil => simp [alistSet, alistFind?]
  | cons a t ih =>
    by_cases h : a.1 = k
    · simp [alistSet, alistFind?, h]
    · simp [alistSet, alistFind?, h, ih]

theorem alistFind?_set_ne {α : Type} (l : List (String × α)) (k : String) (v : α)
    (k' : String) (h : k' ≠ k) : alistFind? (alistSet l k v) k' = alistFind? l k' := by
  induction l with
  | nil => simp [alistSet, alistFind?, Ne.symm h]
  | cons a t ih =>
    by_cases ha : a.1 = k
    · simp [alistSet, alistFind?, ha, Ne.symm h]
    · by_cases hak' : a.1 = k'
      · simp [alistSet, alistFind?, ha, hak', h]
      · simp [alistSet, alistFind?, ha, hak', ih]

theorem alistFind?_erase_self {α : Type} (l : List (String × α)) (k : String) :
    alistFind? (alistErase l k) k = none := by
  induction l with
  | nil => simp [alistErase, alistFind?]
  | cons a t ih =>
    by_cases h : a.1 = k
    · simp [alistErase, h, ih]
    · simp [alistErase, alistFind?, h, ih]

theorem alistFind?_erase_ne {α : Type} (l : List (String × α)) (k k' : String)
    (h : k' ≠ k) : alistFind? (alistErase l k) k' = alistFind? l k' := by
  induction l with
  | nil => simp [alistErase]
  | cons a t ih =>
    by_cases ha : a.1 = k
    · simp [alistErase, alistFind?, ha, Ne.symm h, ih]
    · by_cases hak' : a.1 = k'
      · simp [alistErase, alistFind?, ha, hak', h]
      · simp [alistErase, alistFind?, ha, hak', ih]

/-! ## C1 — Unregister -/

/-- Claim C1 (code evaluated at the failing input): on a registry holding a
single counter entry under name `x` with cardinality count 1,
`Unregister("x")` removes the entry (and is a no-op on the untouched name
`y`), yet the cardinality table still maps `x` to 1 — the source never
decrements `cardinality` in `Unregister`, contradicting the claimed
decrement. -/
theorem unregister_leaves_cardinality_untouched :
    (unregister (M := Unit)
        { metrics := [("counter:x", { metric := (), expiresAt := 0, ttl := 0 })]
          cardinality := [("x", 1)]
          tagValidationConfig :=
            { maxKeys := 10, maxKeyLength := 100, maxValueLength := 200,
              maxCardinality := 1000, disallowedKeys := [] } } "x").metrics = [] ∧
    (unregister (M := Unit)
        { metrics := [("counter:x", { metric := (), expiresAt := 0, ttl := 0 })]
          cardinality := [("x", 1)]
          tagValidationConfig :=
            { maxKeys := 10, maxKeyLength := 100, maxValueLength := 200,
              maxCardinality := 1000, disallowedKeys := [] } } "x").cardinality = [("x", 1)] ∧
    (unregister (M := Unit)
        { metrics := [("counter:x", { metric := (), expiresAt := 0, ttl := 0 })]
          cardinality := [("x", 1)]
          tagValidationConfig :=
            { maxKeys := 10, maxKeyLength := 100, maxValueLength := 200,
              maxCardinality := 1000, disallowedKeys := [] } } "y") =
      { metrics := [("counter:x", { metric := (), expiresAt := 0, ttl := 0 })]
        cardinality := [("x", 1)]
        tagValidationConfig :=
          { maxKeys := 10, maxKeyLength := 100, maxValueLength := 200,
            maxCardinality := 1000, disallowedKeys := [] } } := by
  decide

/-! ## C2 — Histogram.With -/

/-- Claim C2 (code evaluated at the failing input): `With` on a histogram
with boundaries `[1, 5, 10]` yields a zeroed derived histogram whose
boundary array is empty, not `[1, 5, 10]`; consequently observing `7`
on the derived histogram lands in bucket 0 where the original routes it
to bucket 2 — the source's `With` never copies `boundaries`. -/
theorem histWith_drops_boundaries :
    (newHistogram
        { name := "h", description := "", unit := "", tags := [],
          buckets := [1, 5, 10], ttl := 0 } =
      Except.ok
        { name := "h", description := "", unit := "", tags := [],
          count := 0, sum := 0, min := 0, max := 0,
          buckets := [0, 0, 0, 0], boundaries := [1, 5, 10] }) ∧
    (histWith
        { name := "h", description := "", unit := "", tags := [],
          count := 0, sum := 0, min := 0, max := 0,
          buckets := [0, 0, 0, 0], boundaries := [1, 5, 10] }
        [("region", "us-west")]).boundaries = [] ∧
    findBucket [1, 5, 10] 7 = 2 ∧
    (observe (histWith
        { name := "h", description := "", unit := "", tags := [],
          count := 0, sum := 0, min := 0, max := 0,
          buckets := [0, 0, 0, 0], boundaries := [1, 5, 10] }
        [("region", "us-west")]) 7).buckets = [1, 0, 0, 0] := by
  decide

/-! ## C7 — lookup failure paths -/

/-- Claim C7: `lookup` fails synchronously with `InvalidTags` whenever tag
validation fails, and with `CardinalityExceeded` whenever the identity is
absent and the per-name count has reached the configured maximum; in both
cases the returned registry is exactly the input — no entry is inserted
and the cardinality table is unchanged. -/
theorem lookup_failure_no_insert {M : Type} (r : RegState M) (opts : Options)
    (mt : MetricType) (factory : Unit → M) (now : Nat) :
    (∀ e, validateTags opts.tags r.tagValidationConfig = some e →
      lookup r opts mt factory now = (Except.error (RegError.invalidTags e), r)) ∧
    (validateTags opts.tags r.tagValidationConfig = none →
      alistFind? r.metrics (typeKey mt opts.name) = none →
      (alistFind? r.cardinality opts.name).getD 0 ≥ r.tagValidationConfig.maxCardinality →
      lookup r opts mt factory now = (Except.error RegError.cardinalityExceeded, r)) := by
  constructor
  · intro e hv
    simp [lookup, hv]
  · intro hv hfound hcard
    simp [lookup, hv, hfound, hcard]

/-- Witness for C7: both failure paths at concrete inputs — a one-tag map
against a zero-key policy, and an empty registry whose cardinality cap is
zero. -/
theorem lookup_failure_no_insert_witness :
    lookup (M := Unit)
        { metrics := [], cardinality := [],
          tagValidationConfig :=
            { maxKeys := 0, maxKeyLength := 100, maxValueLength := 200,
              maxCardinality := 1000, disallowedKeys := [] } }
        { name := "m", description := "", unit := "", tags := [("a", "b")],
          buckets := [], ttl := 0 } MetricType.counter (fun _ => ()) 5 =
      (Except.error (RegError.invalidTags TagError.tooManyKeys),
        { metrics := [], cardinality := [],
          tagValidationConfig :=
            { maxKeys := 0, maxKeyLength := 100, maxValueLength := 200,
              maxCardinality := 1000, disallowedKeys := [] } }) ∧
    lookup (M := Unit)
        { metrics := [], cardinality := [],
          tagValidationConfig :=
            { maxKeys := 10, maxKeyLength := 100, maxValueLength := 200,
              maxCardinality := 0, disallowedKeys := [] } }
        { name := "m", description := "", unit := "", tags := [],
          buckets := [], ttl := 0 } MetricType.counter (fun _ => ()) 5 =
      (Except.error RegError.cardinalityExceeded,
        { metrics := [], cardinality := [],
          tagValidationConfig :=
            { maxKeys := 10, maxKeyLength := 100, maxValueLength := 200,
              maxCardinality := 0, disallowedKeys := [] } }) := by
  constructor
  · exact (lookup_failure_no_insert _ _ _ _ _).1 _ (by decide)
  · exact (lookup_failure_no_insert _ _ _ _ _).2 (by decide) (by decide) (by decide)

/-! ## C10 — cached-hit frame -/

/-- Claim C10: when the identity `(kind, name)` is already registered and
the new options' tags pass validation, `lookup` returns the stored metric
and the registry completely unchanged — the new options' tags,
description, unit, buckets and TTL are ignored, no expiration is
refreshed, and the cardinality count is not incremented. -/
theorem lookup_cached_hit_frame {M : Type} (r : RegState M) (opts : Options)
    (mt : MetricType) (factory : Unit → M) (now : Nat) (entry : MetricEntry M)
    (hv : validateTags opts.tags r.tagValidationConfig = none)
    (hfound : alistFind? r.metrics (typeKey mt opts.name) = some entry) :
    lookup r opts mt factory now = (Except.ok entry.metric, r) := by
  simp [lookup, hv, hfound]

/-- Witness for C10: a registry already holding `counter:m` (with no TTL)
queried again with different tags, buckets and a fresh TTL returns the
stored metric and the identical registry state. -/
theorem lookup_cached_hit_frame_witness :
    lookup (M := Unit)
        { metrics := [("counter:m", { metric := (), expiresAt := 0, ttl := 0 })]
          cardinality := [("m", 1)]
          tagValidationConfig :=
            { maxKeys := 10, maxKeyLength := 100, maxValueLength := 200,
              maxCardinality := 1000, disallowedKeys := [] } }
        { name := "m", description := "changed", unit := "ms",
          tags := [("fresh", "tag")], buckets := [1, 2], ttl := 777 }
        MetricType.counter (fun _ => ()) 42 =
      (Except.ok (),
        { metrics := [("counter:m", { metric := (), expiresAt := 0, ttl := 0 })]
          cardinality := [("m", 1)]
          tagValidationConfig :=
            { maxKeys := 10, maxKeyLength := 100, maxValueLength := 200,
              maxCardinality := 1000, disallowedKeys := [] } }) := by
  exact lookup_cached_hit_frame _ _ _ _ _
    { metric := (), expiresAt := 0, ttl := 0 } (by decide) (by decide)

/-! ## C8 — ValidateTags -/

theorem findSome?_isSome_iff {α β : Type} (f : α → Option β) (l : List α) :
    (l.findSome? f).isSome ↔ ∃ a ∈ l, (f a).isSome := by
  induction l with
  | nil => simp [List.findSome?]
  | cons a t ih =>
    cases hfa : f a with
    | some b => simp [List.findSome?_cons, hfa]
    | none => simp [List.findSome?_cons, hfa, ih]

theorem findSome?_eq_some_mem {α β : Type} (f : α → Option β) (l : List α) (b : β)
    (h : l.findSome? f = some b) : ∃ a ∈ l, f a = some b := by
  induction l with
  | nil => simp [List.findSome?] at h
  | cons a t ih =>
    cases hfa : f a with
    | some c =>
      rw [List.findSome?_cons, hfa] at h
      exact ⟨a, List.mem_cons_self a t, hfa.trans h⟩
    | none =>
      rw [List.findSome?_cons, hfa] at h
      obtain ⟨x, hx, hfx⟩ := ih h
      exact ⟨x, List.mem_cons_of_mem a hx, hfx⟩

theorem checkTag_isSome_iff (config : TagValidationConfig) (p : String × String) :
    (checkTag config p).isSome ↔
      (p.1.utf8ByteSize > config.maxKeyLength ∨ p.2.utf8ByteSize > config.maxValueLength ∨
       p.1 ∈ config.disallowedKeys ∨ p.1 = "") := by
  unfold checkTag
  split_ifs with h1 h2 h3 h4 <;> simp_all [List.elem_iff]

theorem checkTag_sound (config : TagValidationConfig) (p : String × String)
    (e : TagError) (h : checkTag config p = some e) :
    match e with
    | .tooManyKeys => False
    | .keyTooLong k => p.1 = k ∧ p.1.utf8ByteSize > config.maxKeyLength
    | .valueTooLong k => p.1 = k ∧ p.2.utf8ByteSize > config.maxValueLength
    | .disallowedKey k => p.1 = k ∧ k ∈ config.disallowedKeys
    | .emptyKey => p.1 = "" := by
  unfold checkTag at h
  split_ifs at h with h1 h2 h3 h4 <;> cases h <;>
    simp_all [List.elem_iff]

/-- Claim C8: `ValidateTags` fails exactly when the tag map has too many
keys, or some key or value is over-long, or some key is empty, or some
key is denylisted; and whichever failure it reports corresponds to a real
violation of that kind (no ordering among simultaneous violations is
asserted). -/
theorem validateTags_characterisation (tags : Tags) (config : TagValidationConfig) :
    ((validateTags tags config).isSome ↔
      (tags.length > config.maxKeys ∨
       (∃ p ∈ tags, p.1.utf8ByteSize > config.maxKeyLength) ∨
       (∃ p ∈ tags, p.2.utf8ByteSize > config.maxValueLength) ∨
       (∃ p ∈ tags, p.1 = "") ∨
       (∃ p ∈ tags, p.1 ∈ config.disallowedKeys))) ∧
    (validateTags tags config = some TagError.tooManyKeys →
      tags.length > config.maxKeys) ∧
    (∀ k, validateTags tags config = some (TagError.keyTooLong k) →
      ∃ p ∈ tags, p.1 = k ∧ p.1.utf8ByteSize > config.maxKeyLength) ∧
    (∀ k, validateTags tags config = some (TagError.valueTooLong k) →
      ∃ p ∈ tags, p.1 = k ∧ p.2.utf8ByteSize > config.maxValueLength) ∧
    (∀ k, validateTags tags config = some (TagError.disallowedKey k) →
      ∃ p ∈ tags, p.1 = k ∧ k ∈ config.disallowedKeys) ∧
    (validateTags tags config = some TagError.emptyKey →
      ∃ p ∈ tags, p.1 = "") := by
  unfold validateTags
  by_cases hlen : tags.length > config.maxKeys
  · rw [if_pos hlen]
    refine ⟨by simp [hlen], fun _ => hlen, ?_, ?_, ?_, ?_⟩ <;> intros <;> simp_all
  · rw [if_neg hlen]
    refine ⟨?_, ?_, ?_, ?_, ?_, ?_⟩
    · rw [findSome?_isSome_iff]
      constructor
      · rintro ⟨p, hp, hsome⟩
        rcases (checkTag_isSome_iff config p).mp hsome with h | h | h | h
        · exact Or.inr (Or.inl ⟨p, hp, h⟩)
        · exact Or.inr (Or.inr (Or.inl ⟨p, hp, h⟩))
        · exact Or.inr (Or.inr (Or.inr (Or.inr ⟨p, hp, h⟩)))
        · exact Or.inr (Or.inr (Or.inr (Or.inl ⟨p, hp, h⟩)))
      · rintro (h | ⟨p, hp, h⟩ | ⟨p, hp, h⟩ | ⟨p, hp, h⟩ | ⟨p, hp, h⟩)
        · exact absurd h hlen
        · exact ⟨p, hp, (checkTag_isSome_iff config p).mpr (Or.inl h)⟩
        · exact ⟨p, hp, (checkTag_isSome_iff config p).mpr (Or.inr (Or.inl h))⟩
        · exact ⟨p, hp, (checkTag_isSome_iff config p).mpr (Or.inr (Or.inr (Or.inr h)))⟩
        · exact ⟨p, hp, (checkTag_isSome_iff config p).mpr (Or.inr (Or.inr (Or.inl h)))⟩
    · intro h
      obtain ⟨p, _, hp⟩ := findSome?_eq_some_mem _ _ _ h
      exact absurd (checkTag_sound config p _ hp) (by simp)
    · intro k h
      obtain ⟨p, hmem, hp⟩ := findSome?_eq_some_mem _ _ _ h
      exact ⟨p, hmem, checkTag_sound config p _ hp⟩
    · intro k h
      obtain ⟨p, hmem, hp⟩ := findSome?_eq_some_mem _ _ _ h
      exact ⟨p, hmem, checkTag_sound config p _ hp⟩
    · intro k h
      obtain ⟨p, hmem, hp⟩ := findSome?_eq_some_mem _ _ _ h
      exact ⟨p, hmem, checkTag_sound config p _ hp⟩
    · intro h
      obtain ⟨p, hmem, hp⟩ := findSome?_eq_some_mem _ _ _ h
      exact ⟨p, hmem, checkTag_sound config p _ hp⟩

/-! ## C9 — histogram construction -/

theorem strictlyAscending_iff_chain (l : List ℚ) :
    strictlyAscending l = true ↔ List.Chain' (· < ·) l := by
  induction l with
  | nil => simp [strictlyAscending]
  | cons a t ih =>
    cases t with
    | nil => simp [strictlyAscending]
    | cons b u => simp [strictlyAscending, List.chain'_cons, ih]

theorem validateBuckets_eq_none_iff (l : List ℚ) :
    validateBuckets l = none ↔
      (l = [] ∨ ((∀ b ∈ l, 0 < b) ∧ List.Chain' (· < ·) l)) := by
  unfold validateBuckets
  split_ifs with h1 h2 h3
  · simp [h1]
  · simp only [h1, false_or]
    constructor
    · intro h; cases h
    · rintro ⟨hpos, _⟩
      obtain ⟨b, hb, hble⟩ := by simpa using h2
      exact absurd (hpos b hb) (by simpa using not_lt.mpr hble)
  · have hpos : ∀ b ∈ l, 0 < b := by
      intro b hb
      by_contra hc
      exact h2 (by simpa using ⟨b, hb, le_of_not_lt hc⟩)
    exact iff_of_true rfl
      (Or.inr ⟨hpos, (strictlyAscending_iff_chain l).mp h3⟩)
  · have : ¬ List.Chain' (· < ·) l := fun hc =>
      h3 ((strictlyAscending_iff_chain l).mpr hc)
    simp [h1, this]

/-- Claim C9: with no supplied boundaries `newHistogram` succeeds using the
default list `[0.001, 0.01, 0.1, 1, 10, 100, 1000, 10000]`; a supplied
boundary list with a non-positive member or a non-strictly-ascending
adjacent pair makes construction itself fail; and every successfully
constructed histogram has `len(boundaries) + 1` bucket slots. -/
theorem newHistogram_construction (opts : Options) :
    (opts.buckets = [] →
      ∃ h, newHistogram opts = Except.ok h ∧ h.boundaries = defaultBoundaries) ∧
    (∀ h, newHistogram opts = Except.ok h → h.buckets.length = h.boundaries.length + 1) ∧
    (opts.buckets ≠ [] →
      ((∃ b ∈ opts.buckets, b ≤ 0) ∨ ¬ List.Chain' (· < ·) opts.buckets) →
      ∃ e, newHistogram opts = Except.error e) := by
  have hdef : validateBuckets defaultBoundaries = none := by decide
  refine ⟨?_, ?_, ?_⟩
  · intro hb
    refine ⟨{ name := opts.name, description := opts.description, unit := opts.unit,
              tags := opts.tags, count := 0, sum := 0, min := 0, max := 0,
              buckets := List.replicate (defaultBoundaries.length + 1) 0,
              boundaries := defaultBoundaries }, ?_, rfl⟩
    simp [newHistogram, hb, hdef]
  · intro h hok
    by_cases hb : opts.buckets = []
    · simp [newHistogram, hb, hdef] at hok
      cases hok
      simp
    · simp only [newHistogram, hb, if_false, ite_false, if_neg hb] at hok
      cases hval : validateBuckets opts.buckets with
      | some e => rw [hval] at hok; cases hok
      | none =>
        rw [hval] at hok
        cases hok
        simp
  · intro hne hbad
    cases hval : validateBuckets opts.buckets with
    | some e =>
      refine ⟨e, ?_⟩
      simp [newHistogram, hne, hval]
    | none =>
      rcases (validateBuckets_eq_none_iff opts.buckets).mp hval with h | ⟨hpos, hchain⟩
      · exact absurd h hne
      · rcases hbad with ⟨b, hb, hble⟩ | hnc
        · exact absurd (hpos b hb) (not_lt.mpr hble)
        · exact absurd hchain hnc

/-! ## C5 — Counter.Add and monotonicity -/

/-- Claim C5 refuted at a concrete input: starting from a fresh counter,
`Add(1e19)` twice (a positive delta whose floor is `10^19`) leaves the
stored `uint64` at `1553255926290448384 = 2·10^19 mod 2^64`: the second
call did not increase the value by `floor(delta)`, and `Value()`
decreased. -/
theorem counterAdd_wrap_counterexample :
    (0 : ℚ) < 10000000000000000000 ∧
    trunc (10000000000000000000 : ℚ) = 10 ^ 19 ∧
    counterValue (runCounter
      (newCounter { name := "c", description := "", unit := "", tags := [],
                    buckets := [], ttl := 0 })
      [CounterOp.add 10000000000000000000]) = 10 ^ 19 ∧
    counterValue (runCounter
      (newCounter { name := "c", description := "", unit := "", tags := [],
                    buckets := [], ttl := 0 })
      [CounterOp.add 10000000000000000000, CounterOp.add 10000000000000000000])
      = 1553255926290448384 ∧
    1553255926290448384 < 10 ^ 19 := by
  decide

theorem runCounter_value : ∀ (ops : List CounterOp) (c : CounterState), c.value < U64 →
    (runCounter c ops).value = (c.value + totalInc ops) % U64 := by
  intro ops
  induction ops with
  | nil =>
    intro c hc
    simp [runCounter, totalInc, Nat.mod_eq_of_lt hc]
  | cons op t ih =>
    intro c hc
    have hstep : (counterApply c op).value = (c.value + incAmount op) % U64 := by
      cases op with
      | inc => simp [counterApply, counterInc, incAmount]
      | add d =>
        by_cases hd : d > 0
        · simp [counterApply, counterAdd, incAmount, hd]
        · simp [counterApply, counterAdd, incAmount, hd, Nat.mod_eq_of_lt hc]
    have hlt : (counterApply c op).value < U64 := by
      rw [hstep]
      exact Nat.mod_lt _ (by norm_num [U64])
    calc (runCounter c (op :: t)).value
        = (runCounter (counterApply c op) t).value := by simp [runCounter]
      _ = ((counterApply c op).value + totalInc t) % U64 := ih _ hlt
      _ = ((c.value + incAmount op) % U64 + totalInc t) % U64 := by rw [hstep]
      _ = (c.value + incAmount op + totalInc t) % U64 := Nat.mod_add_mod _ _ _
      _ = (c.value + totalInc (op :: t)) % U64 := by
            simp [totalInc, Nat.add_assoc]

/-- Claim C5 amended: `Add` with `delta > 0` adds `floor(delta)` modulo
`2^64` (it wraps on overflow) and with `delta ≤ 0` is a silent no-op;
over any `Inc`/`Add` sequence from a fresh counter, `Value()` is
non-decreasing as long as the accumulated total stays below `2^64`. -/
theorem counter_add_monotone (opts : Options) (c : CounterState) (q : ℚ)
    (ops tail : List CounterOp) :
    (q ≤ 0 → counterAdd c q = c) ∧
    (0 < q → (counterAdd c q).value = (c.value + trunc q) % U64) ∧
    (totalInc (ops ++ tail) < U64 →
      counterValue (runCounter (newCounter opts) ops)
        ≤ counterValue (runCounter (newCounter opts) (ops ++ tail))) := by
  refine ⟨?_, ?_, ?_⟩
  · intro hq
    simp [counterAdd, not_lt.mpr hq]
  · intro hq
    simp [counterAdd, hq]
  · intro htot
    have h0 : (newCounter opts).value = 0 := rfl
    have hlt0 : (newCounter opts).value < U64 := by rw [h0]; norm_num [U64]
    have happ : totalInc (ops ++ tail) = totalInc ops + totalInc tail := by
      simp [totalInc]
    have h1 : totalInc ops ≤ totalInc (ops ++ tail) := by
      rw [happ]; exact Nat.le_add_right _ _
    rw [counterValue, counterValue, runCounter_value ops _ hlt0,
      runCounter_value (ops ++ tail) _ hlt0, h0]
    simp only [Nat.zero_add]
    rw [Nat.mod_eq_of_lt (lt_of_le_of_lt h1 htot), Nat.mod_eq_of_lt htot]
    exact h1

/-- Witness for the amended C5 at concrete inputs: a no-op negative `Add`,
a positive `Add`, and monotonicity across `[Inc] ++ [Add 2]`. -/
theorem counter_add_monotone_witness :
    ((-1 : ℚ) ≤ 0 →
      counterAdd { name := "c", description := "", unit := "", tags := [], value := 5 } (-1)
        = { name := "c", description := "", unit := "", tags := [], value := 5 }) ∧
    ((0 : ℚ) < 2 →
      (counterAdd { name := "c", description := "", unit := "", tags := [], value := 5 } 2).value
        = (5 + trunc 2) % U64) ∧
    (totalInc ([CounterOp.inc] ++ [CounterOp.add 2]) < U64 →
      counterValue (runCounter
        (newCounter { name := "c", description := "", unit := "", tags := [],
                      buckets := [], ttl := 0 }) [CounterOp.inc])
      ≤ counterValue (runCounter
        (newCounter { name := "c", description := "", unit := "", tags := [],
                      buckets := [], ttl := 0 }) ([CounterOp.inc] ++ [CounterOp.add 2]))) := by
  have h := counter_add_monotone
    { name := "c", description := "", unit := "", tags := [], buckets := [], ttl := 0 }
    { name := "c", description := "", unit := "", tags := [], value := 5 }
    2 [CounterOp.inc] [CounterOp.add 2]
  refine ⟨fun _ => ?_, fun _ => h.2.1 (by norm_num), fun _ => h.2.2 (by decide)⟩
  exact (counter_add_monotone
    { name := "c", description := "", unit := "", tags := [], buckets := [], ttl := 0 }
    { name := "c", description := "", unit := "", tags := [], value := 5 }
    (-1) [] []).1 (by norm_num)

/-! ## C4 — bucket selection -/

theorem sortSearchAux_spec (f : Nat → Bool) (n : Nat)
    (hmono : ∀ k l, k ≤ l → l < n → f k = true → f l = true) :
    ∀ (fuel i j : Nat), j - i ≤ fuel → i ≤ j → j ≤ n →
      i ≤ sortSearchAux f fuel i j ∧ sortSearchAux f fuel i j ≤ j ∧
      (∀ k, i ≤ k → k < sortSearchAux f fuel i j → f k = false) ∧
      (sortSearchAux f fuel i j < j → f (sortSearchAux f fuel i j) = true) := by
  intro fuel
  induction fuel with
  | zero =>
    intro i j hf hij hjn
    have hij' : i = j := by omega
    subst hij'
    simp only [sortSearchAux]
    exact ⟨le_refl _, le_refl _,
      fun k h1 h2 => absurd h2 (by omega),
      fun h => absurd h (by omega)⟩
  | succ fuel ih =>
    intro i j hf hij hjn
    by_cases hlt : i < j
    · have hm1 : i ≤ (i + j) / 2 := by omega
      have hm2 : (i + j) / 2 < j := by omega
      cases hfm : f ((i + j) / 2) with
      | true =>
        have hrec := ih i ((i + j) / 2) (by omega) hm1 (by omega)
        obtain ⟨H1, H2, H3, H4⟩ := hrec
        have hres : sortSearchAux f (fuel + 1) i j = sortSearchAux f fuel i ((i + j) / 2) := by
          simp [sortSearchAux, hlt, hfm]
        rw [hres]
        refine ⟨H1, le_trans H2 (le_of_lt hm2), H3, ?_⟩
        intro _
        rcases lt_or_eq_of_le H2 with hc | hc
        · exact H4 hc
        · rw [hc]; exact hfm
      | false =>
        have hrec := ih ((i + j) / 2 + 1) j (by omega) (by omega) hjn
        obtain ⟨H1, H2, H3, H4⟩ := hrec
        have hres : sortSearchAux f (fuel + 1) i j
            = sortSearchAux f fuel ((i + j) / 2 + 1) j := by
          simp [sortSearchAux, hlt, hfm]
        rw [hres]
        refine ⟨by omega, H2, ?_, H4⟩
        intro k hik hk
        by_cases hkm : (i + j) / 2 + 1 ≤ k
        · exact H3 k hkm hk
        · have hkm' : k ≤ (i + j) / 2 := by omega
          cases hfk : f k with
          | false => rfl
          | true =>
            exact absurd (hmono k ((i + j) / 2) hkm' (by omega) hfk) (by simp [hfm])
    · have hij' : i = j := by omega
      subst hij'
      simp only [sortSearchAux, if_neg hlt]
      exact ⟨le_refl _, le_refl _,
        fun k h1 h2 => absurd h2 (by omega),
        fun h => absurd h (by omega)⟩

theorem sortSearch_spec (f : Nat → Bool) (n : Nat)
    (hmono : ∀ k l, k ≤ l → l < n → f k = true → f l = true) :
    sortSearch f n ≤ n ∧ (∀ k, k < sortSearch f n → f k = false) ∧
    (sortSearch f n < n → f (sortSearch f n) = true) := by
  obtain ⟨_, H2, H3, H4⟩ :=
    sortSearchAux_spec f n hmono (n - 0) 0 n (le_refl _) (Nat.zero_le _) (le_refl _)
  exact ⟨H2, fun k hk => H3 k (Nat.zero_le _) hk, H4⟩

theorem findIdx_eq_of {α : Type} (d : α) (l : List α) (p : α → Bool) (r : Nat)
    (hle : r ≤ l.length)
    (hfalse : ∀ k, k < r → p (l.getD k d) = false)
    (htrue : r < l.length → p (l.getD r d) = true) :
    l.findIdx p = r := by
  induction l generalizing r with
  | nil =>
    have : r = 0 := by simpa using hle
    simp [this]
  | cons a t ih =>
    cases r with
    | zero =>
      have := htrue (by simp)
      simp only [List.getD_cons_zero] at this
      simp [List.findIdx_cons, this]
    | succ r' =>
      have h0 : p a = false := by
        have := hfalse 0 (Nat.succ_pos _)
        simpa using this
      have ht : t.findIdx p = r' := by
        refine ih r' (by simpa using hle) ?_ ?_
        · intro k hk
          have := hfalse (k + 1) (by omega)
          simpa using this
        · intro hr
          have := htrue (by simpa using hr)
          simpa using this
      simp [List.findIdx_cons, h0, ht]

theorem findBucket_eq_findIdx (bs : List ℚ) (hbs : List.Chain' (· < ·) bs) (v : ℚ) :
    findBucket bs v = bs.findIdx (fun b => decide (v ≤ b)) := by
  have hpair := List.chain'_iff_pairwise.mp hbs
  have hmono : ∀ k l, k ≤ l → l < bs.length →
      decide (v ≤ bs.getD k 0) = true → decide (v ≤ bs.getD l 0) = true := by
    intro k l hkl hl hk
    rcases eq_or_lt_of_le hkl with rfl | hklt
    · exact hk
    · have hk' : k < bs.length := lt_trans hklt hl
      have hkb : bs.getD k 0 < bs.getD l 0 := by
        rw [List.getD_eq_getElem bs 0 hk', List.getD_eq_getElem bs 0 hl]
        exact List.pairwise_iff_getElem.mp hpair k l hk' hl hklt
      simp only [decide_eq_true_eq] at hk ⊢
      exact le_of_lt (lt_of_le_of_lt hk hkb)
  obtain ⟨hle, hfalse, htrue⟩ := sortSearch_spec _ _ hmono
  by_cases hrl : searchFloat64s bs v < bs.length
  · have hv : decide (v ≤ bs.getD (searchFloat64s bs v) 0) = true := htrue hrl
    simp only [decide_eq_true_eq] at hv
    simp only [findBucket]
    rw [if_pos ⟨hrl, hv⟩]
    exact (findIdx_eq_of 0 bs _ _ (le_of_lt hrl) (fun k hk => hfalse k hk)
      (fun _ => htrue hrl)).symm
  · have hreq : searchFloat64s bs v = bs.length := le_antisymm hle (le_of_not_lt hrl)
    simp only [findBucket]
    rw [if_neg (fun hc => hrl hc.1)]
    refine (findIdx_eq_of 0 bs _ bs.length (le_refl _) ?_ ?_).symm
    · intro k hk
      refine hfalse k ?_
      change k < searchFloat64s bs v
      rw [hreq]
      exact hk
    · intro h
      exact absurd h (lt_irrefl _)

theorem getD_set_self (l : List Nat) (i : Nat) (a : Nat) (h : i < l.length) :
    (l.set i a).getD i 0 = a := by
  induction l generalizing i with
  | nil => simp at h
  | cons x t ih =>
    cases i with
    | zero => simp
    | succ i' => simpa using ih i' (by simpa using h)

theorem getD_set_ne (l : List Nat) (i j : Nat) (a : Nat) (h : j ≠ i) :
    (l.set i a).getD j 0 = l.getD j 0 := by
  induction l generalizing i j with
  | nil => simp
  | cons x t ih =>
    cases i with
    | zero =>
      cases j with
      | zero => exact absurd rfl h
      | succ j' => simp
    | succ i' =>
      cases j with
      | zero => simp
      | succ j' => simpa using ih i' j' (fun e => h (by rw [e]))

/-- Claim C4: on strictly ascending boundaries, `Observe(v)` increments
exactly the bucket at the least index whose boundary is `≥ v` (the
`+∞` slot at index `B` when `v` exceeds every boundary): the binary
search agrees with the least-index characterisation `findIdx`, exactly
that bucket's count changes, and for boundaries `[1, 5, 10]` the value
`5` selects index 1 while `200` selects index 3. -/
theorem observe_bucket_rule (bs : List ℚ) (hbs : List.Chain' (· < ·) bs)
    (h : HistState) (hb : h.boundaries = bs) (hlen : h.buckets.length = bs.length + 1)
    (v : ℚ) :
    findBucket bs v = bs.findIdx (fun b => decide (v ≤ b)) ∧
    (observe h v).buckets.getD (bs.findIdx (fun b => decide (v ≤ b))) 0
      = (h.buckets.getD (bs.findIdx (fun b => decide (v ≤ b))) 0 + 1) % U64 ∧
    (∀ j, j ≠ bs.findIdx (fun b => decide (v ≤ b)) →
      (observe h v).buckets.getD j 0 = h.buckets.getD j 0) ∧
    findBucket [1, 5, 10] 5 = 1 ∧ findBucket [1, 5, 10] 200 = 3 := by
  have heq := findBucket_eq_findIdx bs hbs v
  have hfb_le : findBucket bs v ≤ bs.length := by
    simp only [findBucket]
    split
    next hc => exact le_of_lt hc.1
    next => exact le_refl _
  have hidx : bs.findIdx (fun b => decide (v ≤ b)) ≤ bs.length := heq ▸ hfb_le
  refine ⟨heq, ?_, ?_, by decide, by decide⟩
  · have hlt : bs.findIdx (fun b => decide (v ≤ b)) < h.buckets.length := by omega
    simp only [observe, hb, heq]
    exact getD_set_self _ _ _ hlt
  · intro j hj
    simp only [observe, hb, heq]
    exact getD_set_ne _ _ _ _ hj

/-- Witness for C4 at boundaries `[1, 5, 10]`, a fresh 4-bucket histogram
and the observation `7`. -/
theorem observe_bucket_rule_witness :
    (findBucket [1, 5, 10] 7 = [(1 : ℚ), 5, 10].findIdx (fun b => decide ((7 : ℚ) ≤ b)) ∧
    (observe { name := "h", description := "", unit := "", tags := [],
               count := 0, sum := 0, min := 0, max := 0,
               buckets := [0, 0, 0, 0], boundaries := [1, 5, 10] } 7).buckets.getD
        ([(1 : ℚ), 5, 10].findIdx (fun b => decide ((7 : ℚ) ≤ b))) 0
      = (List.getD [0, 0, 0, 0]
          ([(1 : ℚ), 5, 10].findIdx (fun b => decide ((7 : ℚ) ≤ b))) 0 + 1) % U64 ∧
    (∀ j, j ≠ [(1 : ℚ), 5, 10].findIdx (fun b => decide ((7 : ℚ) ≤ b)) →
      (observe { name := "h", description := "", unit := "", tags := [],
                 count := 0, sum := 0, min := 0, max := 0,
                 buckets := [0, 0, 0, 0], boundaries := [1, 5, 10] } 7).buckets.getD j 0
        = List.getD [0, 0, 0, 0] j 0) ∧
    findBucket [1, 5, 10] 5 = 1 ∧ findBucket [1, 5, 10] 200 = 3) :=
  observe_bucket_rule [1, 5, 10] (by norm_num [List.chain'_cons, List.chain'_singleton])
    { name := "h", description := "", unit := "", tags := [],
      count := 0, sum := 0, min := 0, max := 0,
      buckets := [0, 0, 0, 0], boundaries := [1, 5, 10] } rfl (by decide) 7

/-! ## C3 — histogram conservation -/

theorem newHistogram_ok_state (opts : Options) (h0 : HistState)
    (h : newHistogram opts = Except.ok h0) :
    h0.count = 0 ∧ h0.sum = 0 ∧ h0.min = 0 ∧ h0.max = 0 ∧
    h0.buckets = List.replicate (h0.boundaries.length + 1) 0 := by
  by_cases hb : opts.buckets = []
  · have hdef : validateBuckets defaultBoundaries = none := by decide
    simp only [newHistogram, hb, if_pos, hdef] at h
    cases h
    simp
  · simp only [newHistogram, hb, if_neg hb, ite_false] at h
    cases hval : validateBuckets opts.buckets with
    | some e => rw [hval] at h; cases h
    | none =>
      rw [hval] at h
      cases h
      simp

theorem findBucket_le (bs : List ℚ) (v : ℚ) : findBucket bs v ≤ bs.length := by
  simp only [findBucket]
  split
  next hc => exact le_of_lt hc.1
  next => exact le_refl _

theorem sum_set_add (l : List Nat) : ∀ (i : Nat) (a : Nat), i < l.length →
    (l.set i a).sum + l.getD i 0 = l.sum + a := by
  induction l with
  | nil =>
    intro i a h
    simp at h
  | cons x t ih =>
    intro i a h
    cases i with
    | zero => simp [List.sum_cons]; omega
    | succ i' =>
      have := ih i' a (by simpa using h)
      simp only [List.set_cons_succ, List.sum_cons, List.getD_cons_succ]
      omega

theorem observe_conservation_step (h : HistState) (v : ℚ)
    (hsum : h.buckets.sum % U64 = h.count)
    (hlen : h.buckets.length = h.boundaries.length + 1) :
    (observe h v).buckets.sum % U64 = (observe h v).count ∧
    (observe h v).buckets.length = (observe h v).boundaries.length + 1 := by
  have hidx : findBucket h.boundaries v ≤ h.boundaries.length := findBucket_le _ _
  have hlt : findBucket h.boundaries v < h.buckets.length := by omega
  constructor
  · have hset := sum_set_add h.buckets (findBucket h.boundaries v)
      ((h.buckets.getD (findBucket h.boundaries v) 0 + 1) % U64) hlt
    have hmod1 : (h.buckets.set (findBucket h.boundaries v)
          ((h.buckets.getD (findBucket h.boundaries v) 0 + 1) % U64)).sum
          + h.buckets.getD (findBucket h.boundaries v) 0
        ≡ h.buckets.sum + (h.buckets.getD (findBucket h.boundaries v) 0 + 1)
          [MOD U64] := by
      rw [hset]
      exact Nat.ModEq.add_left _ ((h.buckets.getD (findBucket h.boundaries v) 0 + 1).mod_modEq U64)
    have hmod2 : (h.buckets.set (findBucket h.boundaries v)
          ((h.buckets.getD (findBucket h.boundaries v) 0 + 1) % U64)).sum
        ≡ h.buckets.sum + 1 [MOD U64] := by
      have := hmod1
      rw [show h.buckets.sum + (h.buckets.getD (findBucket h.boundaries v) 0 + 1)
          = (h.buckets.sum + 1) + h.buckets.getD (findBucket h.boundaries v) 0 by omega] at this
      exact Nat.ModEq.add_right_cancel' _ this
    simp only [observe]
    calc (h.buckets.set (findBucket h.boundaries v)
            ((h.buckets.getD (findBucket h.boundaries v) 0 + 1) % U64)).sum % U64
        = (h.buckets.sum + 1) % U64 := hmod2
      _ = (h.buckets.sum % U64 + 1) % U64 := by rw [Nat.mod_add_mod]
      _ = (h.count + 1) % U64 := by rw [hsum]
  · simp only [observe, List.length_set]
    exact hlen

theorem observeAll_sum_inv : ∀ (vs : List ℚ) (h : HistState),
    h.buckets.sum % U64 = h.count → h.buckets.length = h.boundaries.length + 1 →
    (observeAll h vs).buckets.sum % U64 = (observeAll h vs).count := by
  intro vs
  induction vs with
  | nil =>
    intro h hs _
    simpa [observeAll] using hs
  | cons v t ih =>
    intro h hs hl
    have hstep := observe_conservation_step h v hs hl
    have hfold : observeAll h (v :: t) = observeAll (observe h v) t := by
      simp [observeAll]
    rw [hfold]
    exact ih _ hstep.1 hstep.2

theorem observeAll_append (h : HistState) (vs : List ℚ) (v : ℚ) :
    observeAll h (vs ++ [v]) = observe (observeAll h vs) v := by
  simp [observeAll]

theorem updateMax_ge_current (c w : Nat) : c ≤ updateMax c w := by
  unfold updateMax
  split <;> omega

theorem updateMax_ge_new (c w : Nat) : w ≤ updateMax c w := by
  unfold updateMax
  split <;> omega

theorem observeAll_minmax (h0 : HistState) (hmin : h0.min = 0) (hmax : h0.max = 0) :
    ∀ vs : List ℚ, vs ≠ [] →
      (observeAll h0 vs).min ∈ vs.map trunc ∧
      (observeAll h0 vs).max ∈ vs.map trunc ∧
      (∀ v ∈ vs, trunc v ≤ (observeAll h0 vs).max) ∧
      (observeAll h0 vs).min ≤ (observeAll h0 vs).max := by
  intro vs
  induction vs using List.reverseRecOn with
  | nil => intro hne; exact absurd rfl hne
  | append_singleton t v ih =>
    intro _
    rw [observeAll_append]
    by_cases ht : t = []
    · subst ht
      have h1 : (observe (observeAll h0 []) v).min = trunc v := by
        simp [observeAll, observe, updateMin, hmin]
      have h2 : (observe (observeAll h0 []) v).max = trunc v := by
        rcases Nat.eq_zero_or_pos (trunc v) with hz | hz
        · simp [observeAll, observe, updateMax, hmax, hz]
        · simp [observeAll, observe, updateMax, hmax, hz]
      refine ⟨by simp [h1], by simp [h2], ?_, by rw [h1, h2]⟩
      intro u hu
      simp only [List.nil_append, List.mem_singleton] at hu
      subst hu
      rw [h2]
    · obtain ⟨hm1, hm2, hm3, hm4⟩ := ih ht
      have hminval : (observe (observeAll h0 t) v).min = updateMin (observeAll h0 t).min (trunc v) := by
        simp [observe]
      have hmaxval : (observe (observeAll h0 t) v).max = updateMax (observeAll h0 t).max (trunc v) := by
        simp [observe]
      have hmem_min : (observe (observeAll h0 t) v).min ∈ (t ++ [v]).map trunc := by
        rw [hminval]
        unfold updateMin
        split
        · simp
        · simp only [List.map_append, List.mem_append]
          exact Or.inl hm1
      have hmem_max : (observe (observeAll h0 t) v).max ∈ (t ++ [v]).map trunc := by
        rw [hmaxval]
        unfold updateMax
        split
        · simp
        · simp only [List.map_append, List.mem_append]
          exact Or.inl hm2
      refine ⟨hmem_min, hmem_max, ?_, ?_⟩
      · intro u hu
        rw [hmaxval]
        rcases List.mem_append.mp hu with hu' | hu'
        · exact le_trans (hm3 u hu') (updateMax_ge_current _ _)
        · rw [List.mem_singleton.mp hu']
          exact updateMax_ge_new _ _
      · rw [hminval, hmaxval]
        unfold updateMin
        split
        · exact updateMax_ge_new _ _
        · exact le_trans hm4 (updateMax_ge_current _ _)

/-- Claim C3: starting from any successfully constructed histogram, after
any finite sequence of `Observe` calls the bucket counts sum to `count`
(in the `uint64` arithmetic both are stored in), and once `count > 0` the
stored `min` and `max` satisfy `min ≤ max` and are both truncated
observed values — hence both lie within the range of the observed values. -/
theorem histogram_conservation (opts : Options) (h0 : HistState) (vs : List ℚ)
    (hnew : newHistogram opts = Except.ok h0) :
    (observeAll h0 vs).buckets.sum % U64 = (observeAll h0 vs).count ∧
    ((observeAll h0 vs).count ≠ 0 →
      (observeAll h0 vs).min ≤ (observeAll h0 vs).max ∧
      (observeAll h0 vs).min ∈ vs.map trunc ∧
      (observeAll h0 vs).max ∈ vs.map trunc ∧
      (∀ v ∈ vs, trunc v ≤ (observeAll h0 vs).max)) := by
  obtain ⟨hcount, _, hmin, hmax, hbuckets⟩ := newHistogram_ok_state opts h0 hnew
  have hsum0 : h0.buckets.sum % U64 = h0.count := by
    rw [hbuckets, hcount]
    simp
  have hlen0 : h0.buckets.length = h0.boundaries.length + 1 := by
    rw [hbuckets]
    simp
  refine ⟨observeAll_sum_inv vs h0 hsum0 hlen0, ?_⟩
  intro hc
  have hvs : vs ≠ [] := by
    rintro rfl
    exact hc (by simpa [observeAll] using hcount)
  obtain ⟨hm1, hm2, hm3, hm4⟩ := observeAll_minmax h0 hmin hmax vs hvs
  exact ⟨hm4, hm1, hm2, hm3⟩

/-- Witness for C3: a histogram over `[1, 5, 10]` observing `7` then `3`. -/
theorem histogram_conservation_witness :
    (observeAll
        { name := "h", description := "", unit := "", tags := [],
          count := 0, sum := 0, min := 0, max := 0,
          buckets := [0, 0, 0, 0], boundaries := [1, 5, 10] } [7, 3]).buckets.sum % U64
      = (observeAll
        { name := "h", description := "", unit := "", tags := [],
          count := 0, sum := 0, min := 0, max := 0,
          buckets := [0, 0, 0, 0], boundaries := [1, 5, 10] } [7, 3]).count ∧
    ((observeAll
        { name := "h", description := "", unit := "", tags := [],
          count := 0, sum := 0, min := 0, max := 0,
          buckets := [0, 0, 0, 0], boundaries := [1, 5, 10] } [7, 3]).count ≠ 0 →
      (observeAll
        { name := "h", description := "", unit := "", tags := [],
          count := 0, sum := 0, min := 0, max := 0,
          buckets := [0, 0, 0, 0], boundaries := [1, 5, 10] } [7, 3]).min
        ≤ (observeAll
        { name := "h", description := "", unit := "", tags := [],
          count := 0, sum := 0, min := 0, max := 0,
          buckets := [0, 0, 0, 0], boundaries := [1, 5, 10] } [7, 3]).max ∧
      (observeAll
        { name := "h", description := "", unit := "", tags := [],
          count := 0, sum := 0, min := 0, max := 0,
          buckets := [0, 0, 0, 0], boundaries := [1, 5, 10] } [7, 3]).min
        ∈ [(7 : ℚ), 3].map trunc ∧
      (observeAll
        { name := "h", description := "", unit := "", tags := [],
          count := 0, sum := 0, min := 0, max := 0,
          buckets := [0, 0, 0, 0], boundaries := [1, 5, 10] } [7, 3]).max
        ∈ [(7 : ℚ), 3].map trunc ∧
      (∀ v ∈ [(7 : ℚ), 3], trunc v ≤ (observeAll
        { name := "h", description := "", unit := "", tags := [],
          count := 0, sum := 0, min := 0, max := 0,
          buckets := [0, 0, 0, 0], boundaries := [1, 5, 10] } [7, 3]).max)) :=
  histogram_conservation
    { name := "h", description := "", unit := "", tags := [],
      buckets := [1, 5, 10], ttl := 0 }
    { name := "h", description := "", unit := "", tags := [],
      count := 0, sum := 0, min := 0, max := 0,
      buckets := [0, 0, 0, 0], boundaries := [1, 5, 10] } [7, 3] (by decide)

/-! ## C6 — TTL and the cleanup sweep -/

theorem alistErase_eq_filter {α : Type} (l : List (String × α)) (k : String) :
    alistErase l k = l.filter (fun q => !(q.1 == k)) := by
  induction l with
  | nil => rfl
  | cons a t ih =>
    by_cases h : a.1 = k <;> simp [alistErase, h, ih, List.filter_cons]

theorem alistFind?_decCard_self (c : List (String × Int)) (n : String) :
    alistFind? (decCard c n) n = cardStep (alistFind? c n) := by
  unfold decCard cardStep
  cases hc : alistFind? c n with
  | none => simp [hc, alistFind?_erase_self]
  | some x =>
    by_cases hx : x - 1 ≤ 0
    · simp [hc, hx, alistFind?_erase_self]
    · simp [hc, hx, alistFind?_set_self]

theorem alistFind?_decCard_ne (c : List (String × Int)) (n n' : String) (h : n' ≠ n) :
    alistFind? (decCard c n) n' = alistFind? c n' := by
  unfold decCard
  by_cases hx : (alistFind? c n).getD 0 - 1 ≤ 0
  · simp [hx, alistFind?_erase_ne c n n' h]
  · simp [hx, alistFind?_set_ne c n _ n' h]

theorem cleanup_fold_metrics {M : Type} (nameOf : M → String) (now : Nat) :
    ∀ (l : List (String × MetricEntry M)) (s : RegState M),
      (l.foldl (sweepEntry nameOf now) s).metrics
        = s.metrics.filter (fun q =>
            !(l.any (fun p => decide (p.2.ttl ≠ 0 ∧ p.2.expiresAt < now) && (q.1 == p.1)))) := by
  intro l
  induction l with
  | nil => intro s; simp
  | cons p t ih =>
    intro s
    rw [List.foldl_cons, ih]
    by_cases hp : p.2.ttl ≠ 0 ∧ p.2.expiresAt < now
    · have hsw : (sweepEntry nameOf now s p).metrics = alistErase s.metrics p.1 := by
        simp [sweepEntry, hp]
      rw [hsw, alistErase_eq_filter, List.filter_filter]
      refine List.filter_congr (fun q _ => ?_)
      have hd : decide (p.2.ttl ≠ 0 ∧ p.2.expiresAt < now) = true := by simp [hp]
      rw [List.any_cons, hd, Bool.true_and, Bool.not_or]
      exact Bool.and_comm _ _
    · have hsw : sweepEntry nameOf now s p = s := by
        simp [sweepEntry, hp]
      rw [hsw]
      refine List.filter_congr (fun q _ => ?_)
      have hd : decide (p.2.ttl ≠ 0 ∧ p.2.expiresAt < now) = false := by simp [hp]
      rw [List.any_cons, hd, Bool.false_and, Bool.false_or]

theorem cleanup_fold_card {M : Type} (nameOf : M → String) (now : Nat) :
    ∀ (l : List (String × MetricEntry M)) (s : RegState M) (n : String),
      alistFind? (l.foldl (sweepEntry nameOf now) s).cardinality n
        = cardStep^[((l.filter (fun p => decide (p.2.ttl ≠ 0 ∧ p.2.expiresAt < now))).map
            (fun p => nameOf p.2.metric)).count n] (alistFind? s.cardinality n) := by
  intro l
  induction l with
  | nil => intro s n; simp
  | cons p t ih =>
    intro s n
    rw [List.foldl_cons, ih]
    by_cases hp : p.2.ttl ≠ 0 ∧ p.2.expiresAt < now
    · have hsw : (sweepEntry nameOf now s p).cardinality
          = decCard s.cardinality (nameOf p.2.metric) := by
        simp [sweepEntry, hp]
      rw [hsw]
      by_cases hn : nameOf p.2.metric = n
      · rw [hn, alistFind?_decCard_self]
        have hcnt : (((p :: t).filter (fun p => decide (p.2.ttl ≠ 0 ∧ p.2.expiresAt < now))).map
            (fun p => nameOf p.2.metric)).count n
            = ((t.filter (fun p => decide (p.2.ttl ≠ 0 ∧ p.2.expiresAt < now))).map
            (fun p => nameOf p.2.metric)).count n + 1 := by
          simp [List.filter_cons, hp, List.count_cons, hn]
        rw [hcnt, Function.iterate_succ_apply]
      · rw [alistFind?_decCard_ne _ _ _ (fun e => hn e.symm)]
        have hcnt : (((p :: t).filter (fun p => decide (p.2.ttl ≠ 0 ∧ p.2.expiresAt < now))).map
            (fun p => nameOf p.2.metric)).count n
            = ((t.filter (fun p => decide (p.2.ttl ≠ 0 ∧ p.2.expiresAt < now))).map
            (fun p => nameOf p.2.metric)).count n := by
          simp [List.filter_cons, hp, List.count_cons, hn]
        rw [hcnt]
    · have hsw : sweepEntry nameOf now s p = s := by
        simp [sweepEntry, hp]
      rw [hsw]
      have hcnt : (((p :: t).filter (fun p => decide (p.2.ttl ≠ 0 ∧ p.2.expiresAt < now))).map
          (fun p => nameOf p.2.metric)).count n
          = ((t.filter (fun p => decide (p.2.ttl ≠ 0 ∧ p.2.expiresAt < now))).map
          (fun p => nameOf p.2.metric)).count n := by
        simp [List.filter_cons, hp]
      rw [hcnt]

theorem nodup_keys_eq {α : Type} : ∀ (l : List (String × α)),
    (l.map Prod.fst).Nodup → ∀ p ∈ l, ∀ q ∈ l, p.1 = q.1 → p = q := by
  intro l
  induction l with
  | nil =>
    intro _ p hp
    simp at hp
  | cons a t ih =>
    intro hnd p hp q hq hpq
    simp only [List.map_cons, List.nodup_cons] at hnd
    rcases List.mem_cons.mp hp with rfl | hp'
    · rcases List.mem_cons.mp hq with rfl | hq'
      · rfl
      · exact absurd (hpq ▸ List.mem_map_of_mem Prod.fst hq') hnd.1
    · rcases List.mem_cons.mp hq with rfl | hq'
      · exact absurd (hpq ▸ List.mem_map_of_mem Prod.fst hp') hnd.1
      · exact ih hnd.2 p hp' q hq' hpq

/-- Claim C6: a fresh entry receives expiration `now + ttl` when
`ttl > 0` and the zero expiration (never expires) when `ttl = 0`; a sweep
removes exactly the entries with `ttl ≠ 0` whose expiration has passed;
entries with `ttl = 0` survive every sweep; and each name's cardinality
value undergoes one decrement-and-delete-at-zero step (`cardStep`) per
entry evicted under that name. -/
theorem cleanup_ttl_spec {M : Type} (nameOf : M → String) (r : RegState M) (now : Nat)
    (hnd : (r.metrics.map Prod.fst).Nodup) :
    ((cleanupExpired nameOf r now).metrics
        = r.metrics.filter (fun p => !(decide (p.2.ttl ≠ 0 ∧ p.2.expiresAt < now)))) ∧
    (∀ p ∈ r.metrics, p.2.ttl = 0 → p ∈ (cleanupExpired nameOf r now).metrics) ∧
    (∀ n, alistFind? (cleanupExpired nameOf r now).cardinality n
        = cardStep^[((r.metrics.filter (fun p => decide (p.2.ttl ≠ 0 ∧ p.2.expiresAt < now))).map
            (fun p => nameOf p.2.metric)).count n] (alistFind? r.cardinality n)) ∧
    (∀ (opts : Options) (mt : MetricType) (factory : Unit → M) (now2 : Nat),
      validateTags opts.tags r.tagValidationConfig = none →
      alistFind? r.metrics (typeKey mt opts.name) = none →
      ¬((alistFind? r.cardinality opts.name).getD 0 ≥ r.tagValidationConfig.maxCardinality) →
      ∃ entry, alistFind? (lookup r opts mt factory now2).2.metrics (typeKey mt opts.name)
          = some entry ∧
        entry.ttl = opts.ttl ∧
        (0 < opts.ttl → entry.expiresAt = now2 + opts.ttl) ∧
        (opts.ttl = 0 → entry.expiresAt = 0)) := by
  have hmet : (cleanupExpired nameOf r now).metrics
      = r.metrics.filter (fun p => !(decide (p.2.ttl ≠ 0 ∧ p.2.expiresAt < now))) := by
    rw [cleanupExpired, cleanup_fold_metrics]
    refine List.filter_congr (fun q hq => ?_)
    congr 1
    cases hd : decide (q.2.ttl ≠ 0 ∧ q.2.expiresAt < now) with
    | false =>
      simp only [List.any_eq_false]
      intro p hp
      cases hqp : (q.1 == p.1) with
      | false => simp
      | true =>
        have hpq : p = q := nodup_keys_eq r.metrics hnd p hp q hq (by simpa using (eq_of_beq hqp).symm)
        subst hpq
        simp [hd]
    | true =>
      simp only [List.any_eq_true]
      exact ⟨q, hq, by simp [hd]⟩
  refine ⟨hmet, ?_, ?_, ?_⟩
  · intro p hp httl
    rw [hmet, List.mem_filter]
    exact ⟨hp, by simp [httl]⟩
  · intro n
    rw [cleanupExpired, cleanup_fold_card]
  · intro opts mt factory now2 hv hfound hcard
    refine ⟨{ metric := factory ()
              ttl := opts.ttl
              expiresAt := if opts.ttl > 0 then now2 + opts.ttl else 0 }, ?_, rfl, ?_, ?_⟩
    · simp only [lookup, hv, hfound, hcard, if_neg hcard]
      exact alistFind?_set_self _ _ _
    · intro h
      simp [h]
    · intro h
      simp [h]

/-- Witness for C6: a two-entry registry (an expired `counter:x` with TTL 3
and an immortal `gauge:y`) swept at time 10, plus a fresh TTL-carrying
creation. -/
theorem cleanup_ttl_spec_witness :
    ((cleanupExpired (M := String) id
        { metrics := [("counter:x", { metric := "x", expiresAt := 5, ttl := 3 }),
                      ("gauge:y", { metric := "y", expiresAt := 0, ttl := 0 })]
          cardinality := [("x", 1), ("y", 1)]
          tagValidationConfig :=
            { maxKeys := 10, maxKeyLength := 100, maxValueLength := 200,
              maxCardinality := 1000, disallowedKeys := [] } } 10).metrics
        = [("counter:x", { metric := "x", expiresAt := 5, ttl := 3 }),
           ("gauge:y", { metric := "y", expiresAt := 0, ttl := 0 })].filter
            (fun p => !(decide (p.2.ttl ≠ 0 ∧ p.2.expiresAt < 10)))) ∧
    (∀ p ∈ [("counter:x", ({ metric := "x", expiresAt := 5, ttl := 3 } : MetricEntry String)),
            ("gauge:y", { metric := "y", expiresAt := 0, ttl := 0 })], p.2.ttl = 0 →
      p ∈ (cleanupExpired (M := String) id
        { metrics := [("counter:x", { metric := "x", expiresAt := 5, ttl := 3 }),
                      ("gauge:y", { metric := "y", expiresAt := 0, ttl := 0 })]
          cardinality := [("x", 1), ("y", 1)]
          tagValidationConfig :=
            { maxKeys := 10, maxKeyLength := 100, maxValueLength := 200,
              maxCardinality := 1000, disallowedKeys := [] } } 10).metrics) ∧
    (∀ n, alistFind? (cleanupExpired (M := String) id
        { metrics := [("counter:x", { metric := "x", expiresAt := 5, ttl := 3 }),
                      ("gauge:y", { metric := "y", expiresAt := 0, ttl := 0 })]
          cardinality := [("x", 1), ("y", 1)]
          tagValidationConfig :=
            { maxKeys := 10, maxKeyLength := 100, maxValueLength := 200,
              maxCardinality := 1000, disallowedKeys := [] } } 10).cardinality n
        = cardStep^[(([("counter:x", ({ metric := "x", expiresAt := 5, ttl := 3 } : MetricEntry String)),
                      ("gauge:y", { metric := "y", expiresAt := 0, ttl := 0 })].filter
              (fun p => decide (p.2.ttl ≠ 0 ∧ p.2.expiresAt < 10))).map
              (fun p => id p.2.metric)).count n]
            (alistFind? [("x", (1 : Int)), ("y", 1)] n)) ∧
    (∀ (opts : Options) (mt : MetricType) (factory : Unit → String) (now2 : Nat),
      validateTags opts.tags
          { maxKeys := 10, maxKeyLength := 100, maxValueLength := 200,
            maxCardinality := 1000, disallowedKeys := [] } = none →
      alistFind? [("counter:x", ({ metric := "x", expiresAt := 5, ttl := 3 } : MetricEntry String)),
                  ("gauge:y", { metric := "y", expiresAt := 0, ttl := 0 })]
          (typeKey mt opts.name) = none →
      ¬((alistFind? [("x", (1 : Int)), ("y", 1)] opts.name).getD 0 ≥ (1000 : Int)) →
      ∃ entry, alistFind? (lookup
          { metrics := [("counter:x", { metric := "x", expiresAt := 5, ttl := 3 }),
                        ("gauge:y", { metric := "y", expiresAt := 0, ttl := 0 })]
            cardinality := [("x", 1), ("y", 1)]
            tagValidationConfig :=
              { maxKeys := 10, maxKeyLength := 100, maxValueLength := 200,
                maxCardinality := 1000, disallowedKeys := [] } }
          opts mt factory now2).2.metrics (typeKey mt opts.name)
          = some entry ∧
        entry.ttl = opts.ttl ∧
        (0 < opts.ttl → entry.expiresAt = now2 + opts.ttl) ∧
        (opts.ttl = 0 → entry.expiresAt = 0)) :=
  cleanup_ttl_spec (M := String) id
    { metrics := [("counter:x", { metric := "x", expiresAt := 5, ttl := 3 }),
                  ("gauge:y", { metric := "y", expiresAt := 0, ttl := 0 })]
      cardinality := [("x", 1), ("y", 1)]
      tagValidationConfig :=
        { maxKeys := 10, maxKeyLength := 100, maxValueLength := 200,
          maxCardinality := 1000, disallowedKeys := [] } } 10 (by decide)

end GoMetrics
